import Mathlib

/-!
Verification development for the keras-io vision tutorial notebooks
(U-Net image segmentation, BASNet boundary-aware segmentation, CTC
handwriting recognition).  Tensors are shallowly embedded over ℚ; the
framework layer library is embedded as symbolic dataflow trees, and
framework functions that are external to the repository (binary
cross-entropy, SSIM, `ctc_batch_cost`, `ctc_decode`, `tf.edit_distance`,
the character lookup tables) enter as explicit function parameters.
-/

namespace KerasIO

/-- Mean of a list of rationals: `backend.mean` over axis 0
(sum divided by length; empty list gives 0, as division by zero). -/
def mean (l : List ℚ) : ℚ := l.sum / l.length

/-! ### BasnetLoss (BASNet notebook)

A batched single-channel image tensor of shape `(batch, H, W, 1)` is a
list of images, each image a list of rows of rational pixel values. -/

/-- A single-channel image: rows of pixel values. -/
abbrev Img := List (List ℚ)

/-- A batch of single-channel images (shape `(batch, H, W, 1)`). -/
abbrev Batch := List Img

/-- Sum of all entries of one image: `backend.sum(·, axis=[1, 2, 3])`
restricted to one sample. -/
def imgSum (im : Img) : ℚ := (im.map List.sum).sum

/-- Entrywise `|y_true * y_pred|` summed over one sample:
`backend.sum(backend.abs(y_true * y_pred), axis=[1, 2, 3])` for one
batch element. -/
def imgAbsMulSum (t p : Img) : ℚ :=
  (List.zipWith (fun rt rp => (List.zipWith (fun a b => |a * b|) rt rp).sum) t p).sum

/-- `self.smooth = 1.0e-9` of `BasnetLoss.__init__`. -/
def smooth : ℚ := 1 / 1000000000

/-- `BasnetLoss.calculate_iou`: per-sample intersection
`sum(|y_true * y_pred|, axis=[1,2,3])`, union
`sum(y_true) + sum(y_pred) - intersection`, then
`mean((intersection + smooth) / (union + smooth), axis=0)`. -/
def calculate_iou (y_true y_pred : Batch) : ℚ :=
  let inter := List.zipWith imgAbsMulSum y_true y_pred
  let union0 := List.zipWith (fun t p => imgSum t + imgSum p) y_true y_pred
  let union := List.zipWith (fun u i => u - i) union0 inter
  mean (List.zipWith (fun i u => (i + smooth) / (u + smooth)) inter union)

/-- `BasnetLoss.call`: binary cross-entropy plus
`mean(1 - ssim + smooth, axis=0)` plus `1 - calculate_iou`, with the
framework losses `keras.losses.BinaryCrossentropy()` and
`tf.image.ssim(·, ·, max_val=1)` passed in as parameters (`ssim`
returns one value per batch element). -/
def basnetLossCall (bce : Batch → Batch → ℚ) (ssim : Batch → Batch → List ℚ)
    (y_true y_pred : Batch) : ℚ :=
  let cross_entropy_loss := bce y_true y_pred
  let ssim_value := ssim y_true y_pred
  let ssim_loss := mean (ssim_value.map (fun s => 1 - s + smooth))
  let iou_value := calculate_iou y_true y_pred
  let iou_loss := 1 - iou_value
  cross_entropy_loss + ssim_loss + iou_loss

/-- The loss exactly as the specification words it: the sum of the binary
cross-entropy term, the SSIM loss `mean (1 - SSIM + smooth)` over the
batch, and the IoU loss `1 - mean ((intersection + smooth) / (union +
smooth))` with `intersection = sum |y_true * y_pred|`,
`union = sum y_true + sum y_pred - intersection`, `smooth = 1e-9`. -/
def basnetLossSpec (bce : Batch → Batch → ℚ) (ssim : Batch → Batch → List ℚ)
    (y_true y_pred : Batch) : ℚ :=
  bce y_true y_pred
    + mean ((ssim y_true y_pred).map (fun s => 1 - s + smooth))
    + (1 - mean (List.zipWith
        (fun t p =>
          (imgAbsMulSum t p + smooth) /
            ((imgSum t + imgSum p - imgAbsMulSum t p) + smooth))
        y_true y_pred))

/-! ### Handwriting notebook: label vectorisation and dataset split -/

/-- `vectorize_label`: look the label's characters up in `char_to_num`
(the lookup table is a parameter), then pad on the right with
`padding_token = 99` up to `max_len`; `tf.pad` with a negative pad amount
raises, modelled as `none`. -/
def vectorize_label (char_to_num : Char → ℤ) (max_len : ℕ) (label : List Char) :
    Option (List ℤ) :=
  let indexed := label.map char_to_num
  let length := indexed.length
  let pad_amount : ℤ := (max_len : ℤ) - length
  if pad_amount < 0 then none
  else some (indexed ++ List.replicate pad_amount.toNat 99)

/-- The three-way dataset split of the handwriting notebook, with the two
slice indices as parameters: `train = words_list[:split_idx]`,
`test = words_list[split_idx:]`, then
`validation = test[:val_split_idx]`, `test = test[val_split_idx:]`. -/
def splitWordsList (words_list : List α) (split_idx val_split_idx : ℕ) :
    List α × List α × List α :=
  let train_samples := words_list.take split_idx
  let test_samples0 := words_list.drop split_idx
  let validation_samples := test_samples0.take val_split_idx
  let test_samples := test_samples0.drop val_split_idx
  (train_samples, validation_samples, test_samples)

/-! ### U-Net notebook: `get_model` as a symbolic dataflow tree -/

/-- Symbolic tensor of the U-Net-like `get_model` graph: each constructor
is one layer application of the source (`Conv2D` carries filters, kernel
size and strides; `padding="same"` throughout). -/
inductive UT where
  | input : UT
  | conv (filters kernel strides : ℕ) (x : UT)
  | bn (x : UT)
  | relu (x : UT)
  | sepConv (filters kernel : ℕ) (x : UT)
  | maxPool (pool strides : ℕ) (x : UT)
  | convT (filters kernel : ℕ) (x : UT)
  | upSample (factor : ℕ) (x : UT)
  | add (a b : UT)
  | softmaxConv (filters kernel : ℕ) (x : UT)
deriving DecidableEq, Repr

/-- Entry block of `get_model`:
`Conv2D(32, 3, strides=2, padding="same")` then `BatchNormalization`
then `Activation("relu")`. -/
def unetEntry : UT := .relu (.bn (.conv 32 3 2 .input))

/-- One downsampling block of `get_model` (the loop body over
`[64, 128, 256]`): relu/SeparableConv2D/BN twice, `MaxPooling2D(3,
strides=2)`, then add the `Conv2D(filters, 1, strides=2)` projection of
`previous_block_activation`. -/
def unetDownBlock (filters : ℕ) (x previous_block_activation : UT) : UT :=
  let x1 := .bn (.sepConv filters 3 (.relu x))
  let x2 := .bn (.sepConv filters 3 (.relu x1))
  let x3 := .maxPool 3 2 x2
  let residual := .conv filters 1 2 previous_block_activation
  .add x3 residual

/-- The downsampling loop: returns the final activation together with the
list of block outputs (`previous_block_activation` is reset to the block
output after each iteration). -/
def unetRunDown : List ℕ → UT → UT → UT × List UT
  | [], x, _ => (x, [])
  | f :: fs, x, prev =>
      let out := unetDownBlock f x prev
      let rest := unetRunDown fs out out
      (rest.1, out :: rest.2)

/-- One upsampling block of `get_model` (the loop body over
`[256, 128, 64, 32]`): relu/Conv2DTranspose/BN twice, `UpSampling2D(2)`,
then add the `Conv2D(filters, 1)` projection of the upsampled
`previous_block_activation`. -/
def unetUpBlock (filters : ℕ) (x previous_block_activation : UT) : UT :=
  let x1 := .bn (.convT filters 3 (.relu x))
  let x2 := .bn (.convT filters 3 (.relu x1))
  let x3 := .upSample 2 x2
  let residual := .conv filters 1 1 (.upSample 2 previous_block_activation)
  .add x3 residual

/-- The upsampling loop: returns the final activation together with, for
each stage, the pair (residual source fed into the projection, block
output). -/
def unetRunUp : List ℕ → UT → UT → UT × List (UT × UT)
  | [], x, _ => (x, [])
  | f :: fs, x, prev =>
      let out := unetUpBlock f x prev
      let rest := unetRunUp fs out out
      (rest.1, (prev, out) :: rest.2)

/-- After the entry block, `previous_block_activation = x`; the result of
the downsampling half of `get_model`. -/
def unetDown : UT × List UT := unetRunDown [64, 128, 256] unetEntry unetEntry

/-- The upsampling half: it starts from the downsampling result, with
`previous_block_activation` equal to the last downsampling block's
output. -/
def unetUp : UT × List (UT × UT) := unetRunUp [256, 128, 64, 32] unetDown.1 unetDown.1

/-- The `get_model` output tensor: the per-pixel classification layer
`Conv2D(num_classes, 3, activation="softmax", padding="same")` applied to
the upsampling result. -/
def unetOutput (num_classes : ℕ) : UT := .softmaxConv num_classes 3 unetUp.1

/-- Outputs of the downsampling stages of `get_model`: the entry
(stride-2 convolution) block and the three stride-2 max-pooling blocks. -/
def unetDownStageOutputs : List UT := unetEntry :: unetDown.2

/-- For each upsampling stage, the tensor fed into its residual
projection (the skip/residual source). -/
def unetUpResidualSources : List UT := unetUp.2.map Prod.fst

/-- For each upsampling stage, its output. -/
def unetUpStageOutputs : List UT := unetUp.2.map Prod.snd

/-- Spatial size semantics of the graph on a square input of side `n`:
`padding="same"` convolution or pooling with stride `s` yields
`⌈n / s⌉`, `UpSampling2D(f)` yields `f * n`. -/
def UT.size : UT → ℕ → ℕ
  | .input, n => n
  | .conv _ _ s x, n => (x.size n + s - 1) / s
  | .bn x, n => x.size n
  | .relu x, n => x.size n
  | .sepConv _ _ x, n => x.size n
  | .maxPool _ s x, n => (x.size n + s - 1) / s
  | .convT _ _ x, n => x.size n
  | .upSample f x, n => f * x.size n
  | .add a _, n => a.size n
  | .softmaxConv _ _ x, n => x.size n

/-- Channel-count semantics of the graph on an input with `c` channels. -/
def UT.channels : UT → ℕ → ℕ
  | .input, c => c
  | .conv f _ _ _, _ => f
  | .bn x, c => x.channels c
  | .relu x, c => x.channels c
  | .sepConv f _ _, _ => f
  | .maxPool _ _ x, c => x.channels c
  | .convT f _ _, _ => f
  | .upSample _ x, c => x.channels c
  | .add a _, c => a.channels c
  | .softmaxConv f _ _, _ => f

/-- Softmax over `n` class scores, as applied per pixel by the final
`Conv2D(..., activation="softmax")` layer; the exponential enters as an
explicit parameter `e` (any positive function). -/
def softmax {n : ℕ} (e : ℚ → ℚ) (v : Fin n → ℚ) : Fin n → ℚ :=
  fun i => e (v i) / ∑ j, e (v j)

/-! ### BASNet notebook: prediction module, refinement module, combined
model, as symbolic dataflow trees -/

/-- Symbolic tensor of the BASNet graphs.  `conv` carries filters,
kernel size, dilation rate, strides and the bias flag; `resnetBlock i`
is the `i`-th ResNet-34 block extracted by `get_resnet_block`;
`resize2` is the `layers.Resizing(shape[1]*2, shape[2]*2)` doubling and
`resizing h w` the fixed-size `layers.Resizing(h, w)`. -/
inductive BT where
  | inp : BT
  | conv (filters kernel dilation strides : ℕ) (useBias : Bool) (x : BT)
  | bn (x : BT)
  | act (a : String) (x : BT)
  | maxPool (x : BT)
  | resize2 (x : BT)
  | resizing (h w : ℕ) (x : BT)
  | concat (a b : BT)
  | add (a b : BT)
  | resnetBlock (i : ℕ) (x : BT)
deriving DecidableEq, Repr

/-- `basic_block`: residual block with two 3×3 convolutions
(`use_bias=False`), batch norms, identity shortcut (its callers pass
`stride=1` and `down_sample=None`), and an optional final activation. -/
def basic_block (filters : ℕ) (activation : Option String) (x_input : BT) : BT :=
  let residual := x_input
  let x := BT.bn (BT.conv filters 3 1 1 false x_input)
  let x := BT.bn (BT.conv filters 3 1 1 false (BT.act "relu" x))
  let x := BT.add x residual
  match activation with
  | some a => BT.act a x
  | none => x

/-- `convolution_block`: convolution + batch normalization + relu. -/
def convolution_block (x_input : BT) (filters dilation : ℕ) : BT :=
  BT.act "relu" (BT.bn (BT.conv filters 3 dilation 1 true x_input))

/-- `segmentation_head`: a 3×3 convolution to `out_classes` channels,
optionally resized to `final_size`. -/
def segmentation_head (x_input : BT) (out_classes : ℕ) (final_size : Option (ℕ × ℕ)) : BT :=
  let x := BT.conv out_classes 3 1 1 true x_input
  match final_size with
  | some s => BT.resizing s.1 s.2 x
  | none => x

/-- Decoder loop of `basnet_predict` over `reversed(range(6))`: every
stage except the first (`i = num_stages - 1 = 5`) doubles the spatial
size, concatenates `encoder_blocks[i]`, and applies three
`convolution_block`s with `filters * 8 = 512`; returns the decoder
stage outputs in iteration order. -/
def basnetPredictDecoder (enc : List BT) : List ℕ → BT → List BT
  | [], _ => []
  | i :: is, x =>
      let x1 := if i = 5 then x else BT.resize2 x
      let d := convolution_block (convolution_block (convolution_block
        (BT.concat (enc.getD i BT.inp) x1) 512 1) 512 1) 512 1
      d :: basnetPredictDecoder enc is d

/-- `basnet_predict`: the BASNet prediction module's list of seven side
outputs (six decoder stages plus the bridge, each through
`segmentation_head` resized to the input's spatial size `hw`).  The
first list element is `output[0]`, the coarse label map. -/
def basnetPredict (hw : ℕ × ℕ) (out_classes : ℕ) : List BT :=
  let x0 := BT.conv 64 3 1 1 true BT.inp
  let e0 := BT.resnetBlock 0 x0
  let e1 := BT.resnetBlock 1 (BT.act "relu" e0)
  let e2 := BT.resnetBlock 2 (BT.act "relu" e1)
  let e3 := BT.resnetBlock 3 (BT.act "relu" e2)
  let e4 := basic_block 512 (some "relu") (basic_block 512 (some "relu")
    (basic_block 512 (some "relu") (BT.maxPool (BT.act "relu" e3))))
  let e5 := basic_block 512 (some "relu") (basic_block 512 (some "relu")
    (basic_block 512 (some "relu") (BT.maxPool e4)))
  let bridge := convolution_block (convolution_block (convolution_block e5 512 2) 512 2) 512 2
  let enc := [e0, e1, e2, e3, e4, e5, bridge]
  let dec := basnetPredictDecoder enc [5, 4, 3, 2, 1, 0] bridge
  let decoder_blocks := dec.reverse ++ [bridge]
  decoder_blocks.map (fun b => segmentation_head b out_classes (some hw))

/-- Encoder loop of `basnet_rrm`: `num_stages = 4` iterations of one
`convolution_block` (appended to the skip list) followed by 2×2 max
pooling; returns the final tensor and the skip outputs in order. -/
def basnetRRMEncoder : ℕ → BT → BT × List BT
  | 0, x => (x, [])
  | n + 1, x =>
      let cb := convolution_block x 64 1
      let rest := basnetRRMEncoder n (BT.maxPool cb)
      (rest.1, cb :: rest.2)

/-- Decoder loop of `basnet_rrm` over `reversed(range(4))`: doubling
resize, concatenation with `encoder_blocks[i]`, one
`convolution_block`. -/
def basnetRRMDecoder (enc : List BT) : List ℕ → BT → BT
  | [], x => x
  | i :: is, x =>
      basnetRRMDecoder enc is
        (convolution_block (BT.concat (enc.getD i BT.inp) (BT.resize2 x)) 64 1)

/-- The residual produced by the refinement encoder–decoder of
`basnet_rrm` (everything before the final `layers.Add`): its input is
`base_model.output[0]`, the prediction module's coarse map. -/
def basnetRRMResidual (hw : ℕ × ℕ) (out_classes : ℕ) : BT :=
  let x_input := (basnetPredict hw out_classes).headD BT.inp
  let x0 := BT.conv 64 3 1 1 true x_input
  let e := basnetRRMEncoder 4 x0
  let bridge := convolution_block e.1 64 1
  let xdec := basnetRRMDecoder e.2 [3, 2, 1, 0] bridge
  segmentation_head xdec out_classes none

/-- `basnet_rrm`'s output: `layers.Add()([x_input, x])`, coarse plus
residual. -/
def basnetRRMOutput (hw : ℕ × ℕ) (out_classes : ℕ) : BT :=
  BT.add ((basnetPredict hw out_classes).headD BT.inp) (basnetRRMResidual hw out_classes)

/-- `basnet`: the combined model's output list — the refinement output
followed by the prediction module's outputs, each through a sigmoid
activation. -/
def basnetOutputs (hw : ℕ × ℕ) (out_classes : ℕ) : List BT :=
  (basnetRRMOutput hw out_classes :: basnetPredict hw out_classes).map (BT.act "sigmoid")

/-! ### Handwriting notebook: CTC loss layer and CTC decoding -/

/-- A padded label tensor of shape `(batch, label_width)`. -/
abbrev Tensor2 := List (List ℚ)

/-- A prediction tensor of shape `(batch, frames, vocab)`. -/
abbrev Tensor3 := List (List (List ℚ))

/-- `CTCLayer.call`, with the framework's `keras.backend.ctc_batch_cost`
as a parameter: it builds `input_length` as the number of prediction
frames `tf.shape(y_pred)[1]` times a ones vector over the batch, and
`label_length` as the padded label width `tf.shape(y_true)[1]` times a
ones vector, computes the loss, registers it via `add_loss` (modelled as
appending to the loss list), and returns `y_pred` unchanged. -/
def ctcLayerCall (ctc_batch_cost : Tensor2 → Tensor3 → List ℤ → List ℤ → ℚ)
    (y_true : Tensor2) (y_pred : Tensor3) (losses : List ℚ) : Tensor3 × List ℚ :=
  let batch_len := y_true.length
  let input_length : ℤ := (y_pred.headD []).length
  let label_length : ℤ := (y_true.headD []).length
  let input_lengths := List.replicate batch_len input_length
  let label_lengths := List.replicate batch_len label_length
  let loss := ctc_batch_cost y_true y_pred input_lengths label_lengths
  (y_pred, losses ++ [loss])

/-- The `labels` input of `build_model`:
`keras.layers.Input(name="label", shape=(None,))` — a variable
(unspecified) label width. -/
def buildModelLabelInputShape : Option ℕ := none

/-- The per-sample `input_length` passed to `ctc_decode`:
`np.ones(pred.shape[0]) * pred.shape[1]`. -/
def decodeInputLengths (pred : Tensor3) : List ℕ :=
  List.replicate pred.length (pred.headD []).length

/-- `calculate_edit_distance`, with `keras.backend.ctc_decode` (taking
predictions, per-sample input lengths and the greedy flag) and
`tf.edit_distance` as framework parameters: it decodes with
`greedy=True`, truncates each decoded sequence to its first `max_len`
tokens, and averages the per-sample edit distances. -/
def calculate_edit_distance (ctc_decode : Tensor3 → List ℕ → Bool → List (List ℤ))
    (edit_distance : List (List ℤ) → List (List ℤ) → List ℚ)
    (max_len : ℕ) (labels : List (List ℤ)) (predictions : Tensor3) : ℚ :=
  let saprse_labels := labels
  let input_len := decodeInputLengths predictions
  let predictions_decoded :=
    (ctc_decode predictions input_len true).map (fun r => r.take max_len)
  let edit_distances := edit_distance predictions_decoded saprse_labels
  mean edit_distances

/-- `decode_batch_predictions`: decode with `greedy=True`, truncate each
result to `max_len`, drop all `-1` entries, map the remaining indices
through `num_to_char` and join them into one string per sample. -/
def decode_batch_predictions (ctc_decode : Tensor3 → List ℕ → Bool → List (List ℤ))
    (num_to_char : ℤ → String) (max_len : ℕ) (pred : Tensor3) : List String :=
  let input_len := decodeInputLengths pred
  let results := (ctc_decode pred input_len true).map (fun r => r.take max_len)
  results.map (fun res =>
    String.join ((res.filter (fun t => t ≠ -1)).map num_to_char))

/-! ### Handwriting notebook: `distortion_free_resize` -/

/-- A rank-3 image tensor of shape `(height, width, channels)` with a
total entry function (out-of-range reads are irrelevant to the claims). -/
structure Tensor3D where
  height : ℕ
  width : ℕ
  channels : ℕ
  entry : ℕ → ℕ → ℕ → ℚ

/-- The pad split of `distortion_free_resize`: an odd total pad puts the
extra unit on the first (top/left) side, an even total is halved
(Python `//` and `%` on a positive divisor agree with Euclidean
division). -/
def padSplit (pad : ℤ) : ℤ × ℤ :=
  if pad % 2 ≠ 0 then (pad / 2 + 1, pad / 2)
  else (pad / 2, pad / 2)

/-- `tf.pad` with per-side amounts on the first two axes (zero fill). -/
def tfPad (top bottom left right : ℕ) (t : Tensor3D) : Tensor3D :=
  { height := t.height + top + bottom
    width := t.width + left + right
    channels := t.channels
    entry := fun i j k =>
      if i < top ∨ j < left ∨ t.height + top ≤ i ∨ t.width + left ≤ j then 0
      else t.entry (i - top) (j - left) k }

/-- `tf.transpose(·, perm=[1, 0, 2])`: swap the first two axes. -/
def tfTranspose102 (t : Tensor3D) : Tensor3D :=
  { height := t.width
    width := t.height
    channels := t.channels
    entry := fun i j k => t.entry j i k }

/-- `tf.image.flip_left_right`: reverse the second axis. -/
def tfFlipLR (t : Tensor3D) : Tensor3D :=
  { t with entry := fun i j k => t.entry i (t.width - 1 - j) k }

/-- The part of `distortion_free_resize` after the aspect-preserving
`tf.image.resize` (whose output is the `image` argument, of height at
most `h` and width at most `w` under the claim's hypothesis): compute
`pad_height = h - shape[0]` and `pad_width = w - shape[1]`, split each
with the extra unit on the top/left side when odd, pad, transpose the
first two axes and flip left-right. -/
def distortion_free_resize_post (image : Tensor3D) (w h : ℕ) : Tensor3D :=
  let pad_height : ℤ := (h : ℤ) - image.height
  let pad_width : ℤ := (w : ℤ) - image.width
  let ph := padSplit pad_height
  let pw := padSplit pad_width
  let padded := tfPad ph.1.toNat ph.2.toNat pw.1.toNat pw.2.toNat image
  tfFlipLR (tfTranspose102 padded)

/-! ### The three notebooks' tutorial structure (for the `model.fit`
calls and their `callbacks` arguments) -/

/-- The tutorial stages of one notebook, read off its cells: whether it
downloads a public dataset, builds an input pipeline, composes its
architecture from pre-built layers, configures a loss, calls
`model.fit`, and the list of callbacks passed to that `fit` call. -/
structure NotebookRun where
  downloadsPublicDataset : Bool
  buildsInputPipeline : Bool
  composesPrebuiltLayers : Bool
  configuresLoss : Bool
  callsFit : Bool
  fitCallbacks : List String
deriving DecidableEq, Repr

/-- The U-Net notebook: Oxford-IIIT Pet via `tfds.load`,
`tf.data` pipeline, `get_model` from `keras.layers`,
`loss="sparse_categorical_crossentropy"`, and
`model.fit(..., callbacks=callbacks)` with
`callbacks = [DisplayCallback(5)]`. -/
def unetNotebook : NotebookRun :=
  ⟨true, true, true, true, true, ["DisplayCallback"]⟩

/-- The BASNet notebook: DUTS-TE via `wget`/`unzip`, `tf.data` pipeline,
`basnet` from `keras.layers`/`keras_cv`, `loss=BasnetLoss()`, and
`basnet_model.fit(train_dataset, validation_data=val_dataset, epochs=1)`
— a `fit` call with no `callbacks` argument. -/
def basnetNotebook : NotebookRun :=
  ⟨true, true, true, true, true, []⟩

/-- The handwriting notebook: IAM Words via `wget`/`unzip`, `tf.data`
pipeline, `build_model` from `keras.layers`, CTC loss via `CTCLayer`,
and `model.fit(..., callbacks=[edit_distance_callback])`. -/
def handwritingNotebook : NotebookRun :=
  ⟨true, true, true, true, true, ["EditDistanceCallback"]⟩

/-- The three notebooks of the repository. -/
def notebooks : List NotebookRun :=
  [unetNotebook, basnetNotebook, handwritingNotebook]

/-- The claim's per-notebook property: all tutorial stages present and
visualization callbacks passed to `fit`. -/
def tutorialWithCallbacks (nb : NotebookRun) : Prop :=
  nb.downloadsPublicDataset = true ∧ nb.buildsInputPipeline = true
    ∧ nb.composesPrebuiltLayers = true ∧ nb.configuresLoss = true
    ∧ nb.callsFit = true ∧ nb.fitCallbacks ≠ []

instance (nb : NotebookRun) : Decidable (tutorialWithCallbacks nb) := by
  unfold tutorialWithCallbacks
  infer_instance

/-! ### Theorems -/

/-- The triple zip of `calculate_iou` collapses to one zip over the
paired batch. -/
lemma iou_zip_eq (y_true y_pred : Batch) :
    List.zipWith (fun i u => (i + smooth) / (u + smooth))
      (List.zipWith imgAbsMulSum y_true y_pred)
      (List.zipWith (fun u i => u - i)
        (List.zipWith (fun t p => imgSum t + imgSum p) y_true y_pred)
        (List.zipWith imgAbsMulSum y_true y_pred))
    = List.zipWith
        (fun t p => (imgAbsMulSum t p + smooth) /
          ((imgSum t + imgSum p - imgAbsMulSum t p) + smooth)) y_true y_pred := by
  induction y_true generalizing y_pred with
  | nil => simp
  | cons t ts ih =>
      cases y_pred with
      | nil => simp
      | cons p ps => simp [ih]

/-- The per-sample IoU list of `calculate_iou` written directly over the
zipped batch. -/
lemma calculate_iou_eq (y_true y_pred : Batch) :
    calculate_iou y_true y_pred =
      mean (List.zipWith
        (fun t p => (imgAbsMulSum t p + smooth) /
          ((imgSum t + imgSum p - imgAbsMulSum t p) + smooth)) y_true y_pred) := by
  unfold calculate_iou
  exact congrArg mean (iou_zip_eq y_true y_pred)

/-- C1: for every pair of batched tensors (and any binary cross-entropy
and SSIM framework functions), `BasnetLoss.call` returns exactly the sum
of the binary cross-entropy term, the batch mean of
`1 - SSIM + smooth`, and the IoU loss
`1 - mean ((intersection + smooth) / (union + smooth))` with
`intersection = Σ |y_true·y_pred|`,
`union = Σ y_true + Σ y_pred - intersection` and `smooth = 1e-9`. -/
theorem basnet_loss_call_eq_spec (bce : Batch → Batch → ℚ)
    (ssim : Batch → Batch → List ℚ) (y_true y_pred : Batch) :
    basnetLossCall bce ssim y_true y_pred = basnetLossSpec bce ssim y_true y_pred := by
  unfold basnetLossCall basnetLossSpec
  rw [calculate_iou_eq]

/-- C2 counterexample: the residual ("skip") source of the second
upsampling stage of `get_model` is not the output of any downsampling
stage at all — in particular not of its symmetric one. -/
theorem unet_up_stage1_source_not_a_down_output :
    unetUpResidualSources.getD 1 .input ∉ unetDownStageOutputs := by decide

/-- C2 amended: `get_model` has four downsampling and four upsampling
stages, but the connections are a residual chain, not symmetric
encoder–decoder skips: the first upsampling stage's residual source is
the final downsampling stage's output, each later upsampling stage's
residual source is the previous upsampling stage's output, and no
upsampling stage past the first draws from any downsampling stage. -/
theorem unet_residual_chain :
    unetDownStageOutputs.length = 4
    ∧ unetUpResidualSources.length = 4
    ∧ unetUpResidualSources.getD 0 .input = unetDownStageOutputs.getD 3 .input
    ∧ unetUpResidualSources.getD 1 .input = unetUpStageOutputs.getD 0 .input
    ∧ unetUpResidualSources.getD 2 .input = unetUpStageOutputs.getD 1 .input
    ∧ unetUpResidualSources.getD 3 .input = unetUpStageOutputs.getD 2 .input
    ∧ unetUpResidualSources.getD 2 .input ∉ unetDownStageOutputs
    ∧ unetUpResidualSources.getD 3 .input ∉ unetDownStageOutputs := by
  refine ⟨rfl, rfl, rfl, rfl, rfl, rfl, by decide, by decide⟩

/-- C3: on a 160×160 input, the downsampling half of `get_model` (entry
stride-2 convolution plus three stride-2 max-pooling blocks) reduces the
spatial size to 10, the four 2x upsampling blocks restore it to 160, the
final `Conv2D` keeps the spatial size and has `num_classes = 3` output
channels, and the per-pixel softmax makes every pixel's three class
scores sum to 1 (for any positive exponential function `e`). -/
theorem unet_shape_and_softmax (e : ℚ → ℚ) (he : ∀ q, 0 < e q) (v : Fin 3 → ℚ) :
    unetDown.1.size 160 = 10
    ∧ unetUp.1.size 160 = 160
    ∧ (unetOutput 3).size 160 = 160
    ∧ (unetOutput 3).channels 3 = 3
    ∧ ∑ i, softmax e v i = 1 := by
  refine ⟨rfl, rfl, rfl, rfl, ?_⟩
  have hS : 0 < ∑ j, e (v j) :=
    Finset.sum_pos (fun j _ => he (v j)) Finset.univ_nonempty
  simp only [softmax]
  rw [← Finset.sum_div, div_self hS.ne']

/-- Witness for C3 at the constant exponential `e = 1` and zero scores. -/
theorem unet_shape_and_softmax_witness :
    unetDown.1.size 160 = 10
    ∧ unetUp.1.size 160 = 160
    ∧ (unetOutput 3).size 160 = 160
    ∧ (unetOutput 3).channels 3 = 3
    ∧ ∑ i, softmax (fun _ => (1 : ℚ)) (fun _ : Fin 3 => 0) i = 1 :=
  unet_shape_and_softmax (fun _ => 1) (fun _ => one_pos) (fun _ => 0)

/-- C9: a label of length at most `max_len` is vectorised to exactly
`max_len` entries — its characters' lookup indices in order followed by
copies of the padding token 99 — while a longer label makes the pad
amount negative and the padding operation fail. -/
theorem vectorize_label_spec (char_to_num : Char → ℤ) (max_len : ℕ) (label : List Char) :
    (label.length ≤ max_len →
      vectorize_label char_to_num max_len label =
        some (label.map char_to_num ++ List.replicate (max_len - label.length) 99)
      ∧ (label.map char_to_num ++ List.replicate (max_len - label.length) 99).length
          = max_len
      ∧ (label.map char_to_num
          ++ List.replicate (max_len - label.length) 99).take label.length
          = label.map char_to_num)
    ∧ (max_len < label.length → vectorize_label char_to_num max_len label = none) := by
  constructor
  · intro h
    refine ⟨?_, ?_, ?_⟩
    · have h0 : ¬ ((max_len : ℤ) - (label.map char_to_num).length < 0) := by
        simp only [List.length_map]
        omega
      have h1 : ((max_len : ℤ) - (label.map char_to_num).length).toNat
          = max_len - label.length := by
        simp only [List.length_map]
        omega
      simp only [vectorize_label]
      rw [if_neg h0, h1]
    · simp only [List.length_append, List.length_map, List.length_replicate]
      omega
    · rw [List.take_append_of_le_length (by simp)]
      simp
  · intro h
    have h0 : (max_len : ℤ) - (label.map char_to_num).length < 0 := by
      simp only [List.length_map]
      omega
    simp only [vectorize_label]
    rw [if_pos h0]

/-- Witness for C9: with a constant lookup table, a 2-character label and
`max_len = 4` vectorises to `[5, 5, 99, 99]`, and the same label with
`max_len = 1` fails. -/
theorem vectorize_label_spec_witness :
    vectorize_label (fun _ => (5 : ℤ)) 4 [Char.ofNat 97, Char.ofNat 98]
      = some [5, 5, 99, 99]
    ∧ vectorize_label (fun _ => (5 : ℤ)) 1 [Char.ofNat 97, Char.ofNat 98] = none := by
  have h := vectorize_label_spec (fun _ => (5 : ℤ)) 4 [Char.ofNat 97, Char.ofNat 98]
  have h1 := vectorize_label_spec (fun _ => (5 : ℤ)) 1 [Char.ofNat 97, Char.ofNat 98]
  exact ⟨(h.1 (by decide)).1, h1.2 (by decide)⟩

/-- C10: for every `words_list` and any two slice indices, the
train/validation/test slicing partitions the list — concatenating the
three parts recovers `words_list` — so the length assertion
`len(words_list) = len(train) + len(validation) + len(test)` holds; in
particular it holds at the notebook's float-derived indices, whatever
values they take. -/
theorem split_words_list_partition {α : Type} (words_list : List α)
    (split_idx val_split_idx : ℕ) :
    (splitWordsList words_list split_idx val_split_idx).1
        ++ (splitWordsList words_list split_idx val_split_idx).2.1
        ++ (splitWordsList words_list split_idx val_split_idx).2.2 = words_list
    ∧ words_list.length =
        (splitWordsList words_list split_idx val_split_idx).1.length
        + (splitWordsList words_list split_idx val_split_idx).2.1.length
        + (splitWordsList words_list split_idx val_split_idx).2.2.length := by
  have hsplit : (splitWordsList words_list split_idx val_split_idx).1
      ++ (splitWordsList words_list split_idx val_split_idx).2.1
      ++ (splitWordsList words_list split_idx val_split_idx).2.2 = words_list := by
    simp only [splitWordsList, List.append_assoc, List.take_append_drop]
  refine ⟨hsplit, ?_⟩
  have := congrArg List.length hsplit
  simp only [List.length_append] at this
  omega

/-- C4: the BASNet model is a two-stage composition — the refinement
module's output is the prediction module's coarse output (`output[0]`)
plus the residual of the refinement encoder–decoder via `layers.Add`,
and the combined model's output list is the refined map first, followed
by the prediction module's seven side outputs, every output through a
sigmoid activation. -/
theorem basnet_two_stage (hw : ℕ × ℕ) (out_classes : ℕ) :
    basnetRRMOutput hw out_classes
      = BT.add ((basnetPredict hw out_classes).headD BT.inp)
          (basnetRRMResidual hw out_classes)
    ∧ (basnetPredict hw out_classes).length = 7
    ∧ basnetOutputs hw out_classes
        = BT.act "sigmoid" (basnetRRMOutput hw out_classes)
          :: (basnetPredict hw out_classes).map (BT.act "sigmoid") := by
  refine ⟨rfl, ?_, rfl⟩
  simp [basnetPredict, basnetPredictDecoder]

/-- C5: `CTCLayer.call` passes `ctc_batch_cost` the same
`input_length` (the prediction frame count) and the same `label_length`
(the padded label width) for every sample of the batch, registers the
loss, and returns `y_pred` unchanged; the `labels` model input has
variable width `(None,)`. -/
theorem ctc_layer_call_spec (ctc_batch_cost : Tensor2 → Tensor3 → List ℤ → List ℤ → ℚ)
    (y_true : Tensor2) (y_pred : Tensor3) (losses : List ℚ) :
    (ctcLayerCall ctc_batch_cost y_true y_pred losses).1 = y_pred
    ∧ (ctcLayerCall ctc_batch_cost y_true y_pred losses).2
        = losses ++ [ctc_batch_cost y_true y_pred
            (List.replicate y_true.length ((y_pred.headD []).length : ℤ))
            (List.replicate y_true.length ((y_true.headD []).length : ℤ))]
    ∧ buildModelLabelInputShape = none :=
  ⟨rfl, rfl, rfl⟩

/-- C6: both `calculate_edit_distance` and `decode_batch_predictions`
decode with the greedy flag set, truncate each decoded sequence to its
first `max_len` tokens, and `decode_batch_predictions` drops all `-1`
entries before joining the characters — so (witnessed by a concrete
decoder) per-sample output strings may have different lengths. -/
theorem ctc_decoding_greedy (ctc_decode : Tensor3 → List ℕ → Bool → List (List ℤ))
    (edit_distance : List (List ℤ) → List (List ℤ) → List ℚ)
    (num_to_char : ℤ → String) (max_len : ℕ)
    (labels : List (List ℤ)) (predictions : Tensor3) :
    calculate_edit_distance ctc_decode edit_distance max_len labels predictions
      = mean (edit_distance
          ((ctc_decode predictions (decodeInputLengths predictions) true).map
            (fun r => r.take max_len)) labels)
    ∧ decode_batch_predictions ctc_decode num_to_char max_len predictions
      = (ctc_decode predictions (decodeInputLengths predictions) true).map
          (fun res =>
            String.join (((res.take max_len).filter (fun t => t ≠ -1)).map num_to_char))
    ∧ (decode_batch_predictions (fun _ _ _ => [[0, -1], [0, 0]]) (fun _ => "a") 2
          [[[1]], [[1]]]).map String.length = [1, 2] := by
  refine ⟨rfl, ?_, by rfl⟩
  simp only [decode_batch_predictions, List.map_map]
  rfl

/-- The two sides of `padSplit` always sum to the total pad amount. -/
lemma padSplit_sum (p : ℤ) : (padSplit p).1 + (padSplit p).2 = p := by
  unfold padSplit
  split <;> omega

/-- For a nonnegative total, the two (nonnegative) sides of `padSplit`
sum to the total as naturals. -/
lemma padSplit_toNat_sum (p : ℤ) (hp : 0 ≤ p) :
    (padSplit p).1.toNat + (padSplit p).2.toNat = p.toNat := by
  unfold padSplit
  split <;> omega

/-- C8: whenever the aspect-preserving resize yields an image of height
at most `h` and width at most `w`, the rest of `distortion_free_resize`
returns a tensor of shape `(w, h, c)`; the top/bottom pads sum to
`h - height` with the extra unit on top when odd, the left/right pads
sum to `w - width` with the extra unit on the left when odd, and the
result is the padded image transposed on axes (1,0,2) and flipped
left-right. -/
theorem distortion_free_resize_spec (image : Tensor3D) (w h : ℕ)
    (hh : image.height ≤ h) (hw : image.width ≤ w) :
    (distortion_free_resize_post image w h).height = w
    ∧ (distortion_free_resize_post image w h).width = h
    ∧ (distortion_free_resize_post image w h).channels = image.channels
    ∧ (padSplit ((h : ℤ) - image.height)).1 + (padSplit ((h : ℤ) - image.height)).2
        = (h : ℤ) - image.height
    ∧ (padSplit ((w : ℤ) - image.width)).1 + (padSplit ((w : ℤ) - image.width)).2
        = (w : ℤ) - image.width
    ∧ (((h : ℤ) - image.height) % 2 ≠ 0 →
        (padSplit ((h : ℤ) - image.height)).1
          = (padSplit ((h : ℤ) - image.height)).2 + 1)
    ∧ (((w : ℤ) - image.width) % 2 ≠ 0 →
        (padSplit ((w : ℤ) - image.width)).1
          = (padSplit ((w : ℤ) - image.width)).2 + 1)
    ∧ distortion_free_resize_post image w h
        = tfFlipLR (tfTranspose102 (tfPad
            (padSplit ((h : ℤ) - image.height)).1.toNat
            (padSplit ((h : ℤ) - image.height)).2.toNat
            (padSplit ((w : ℤ) - image.width)).1.toNat
            (padSplit ((w : ℤ) - image.width)).2.toNat image)) := by
  have hws := padSplit_toNat_sum ((w : ℤ) - image.width) (by omega)
  have hhs := padSplit_toNat_sum ((h : ℤ) - image.height) (by omega)
  refine ⟨?_, ?_, rfl, padSplit_sum _, padSplit_sum _, ?_, ?_, rfl⟩
  · show image.width + (padSplit ((w : ℤ) - image.width)).1.toNat
      + (padSplit ((w : ℤ) - image.width)).2.toNat = w
    omega
  · show image.height + (padSplit ((h : ℤ) - image.height)).1.toNat
      + (padSplit ((h : ℤ) - image.height)).2.toNat = h
    omega
  · intro hodd
    unfold padSplit
    rw [if_pos hodd]
  · intro hodd
    unfold padSplit
    rw [if_pos hodd]

/-- Concrete 3×2×1 image for the C8 witness. -/
def sampleResizedImage : Tensor3D := ⟨3, 2, 1, fun _ _ _ => 0⟩

/-- Witness for C8 at a 3×2×1 image with target `(w, h) = (4, 6)`
(odd height pad, even width pad). -/
theorem distortion_free_resize_spec_witness :
    sampleResizedImage.height ≤ 6 ∧ sampleResizedImage.width ≤ 4
    ∧ ((distortion_free_resize_post sampleResizedImage 4 6).height = 4
    ∧ (distortion_free_resize_post sampleResizedImage 4 6).width = 6
    ∧ (distortion_free_resize_post sampleResizedImage 4 6).channels
        = sampleResizedImage.channels
    ∧ (padSplit ((6 : ℤ) - sampleResizedImage.height)).1
        + (padSplit ((6 : ℤ) - sampleResizedImage.height)).2
        = (6 : ℤ) - sampleResizedImage.height
    ∧ (padSplit ((4 : ℤ) - sampleResizedImage.width)).1
        + (padSplit ((4 : ℤ) - sampleResizedImage.width)).2
        = (4 : ℤ) - sampleResizedImage.width
    ∧ (((6 : ℤ) - sampleResizedImage.height) % 2 ≠ 0 →
        (padSplit ((6 : ℤ) - sampleResizedImage.height)).1
          = (padSplit ((6 : ℤ) - sampleResizedImage.height)).2 + 1)
    ∧ (((4 : ℤ) - sampleResizedImage.width) % 2 ≠ 0 →
        (padSplit ((4 : ℤ) - sampleResizedImage.width)).1
          = (padSplit ((4 : ℤ) - sampleResizedImage.width)).2 + 1)
    ∧ distortion_free_resize_post sampleResizedImage 4 6
        = tfFlipLR (tfTranspose102 (tfPad
            (padSplit ((6 : ℤ) - sampleResizedImage.height)).1.toNat
            (padSplit ((6 : ℤ) - sampleResizedImage.height)).2.toNat
            (padSplit ((4 : ℤ) - sampleResizedImage.width)).1.toNat
            (padSplit ((4 : ℤ) - sampleResizedImage.width)).2.toNat
            sampleResizedImage))) :=
  ⟨by decide, by decide,
    distortion_free_resize_spec sampleResizedImage 4 6 (by decide) (by decide)⟩

/-- C7 counterexample: it is not the case that every one of the three
notebooks passes visualization callbacks to its `fit` call — the BASNet
notebook's `basnet_model.fit(train_dataset, validation_data=val_dataset,
epochs=1)` passes no callbacks. -/
theorem notebooks_callbacks_claim_false :
    ¬ (∀ nb ∈ notebooks, tutorialWithCallbacks nb) := by decide

/-- C7 amended: each of the three notebooks downloads a public dataset,
builds an input pipeline, composes its architecture from pre-built
layers, configures a loss and calls `model.fit`; the U-Net and
handwriting notebooks pass a visualization callback to `fit`
(`DisplayCallback`, `EditDistanceCallback`), while the BASNet notebook's
`fit` call passes no callbacks. -/
theorem notebooks_tutorial_structure :
    (∀ nb ∈ notebooks,
      nb.downloadsPublicDataset = true ∧ nb.buildsInputPipeline = true
        ∧ nb.composesPrebuiltLayers = true ∧ nb.configuresLoss = true
        ∧ nb.callsFit = true)
    ∧ unetNotebook.fitCallbacks = ["DisplayCallback"]
    ∧ handwritingNotebook.fitCallbacks = ["EditDistanceCallback"]
    ∧ basnetNotebook.fitCallbacks = [] := by decide

end KerasIO
